import Mathlib

/-!
# Tensor wrappers of LunaTFCoordination (`c_wrappers/tensors.cpp`)

A shallow embedding of the exported tensor operations.  Memory is modelled
element-wise: a C array is a `List (Option α)` whose cells are either
initialised (`some v`) or indeterminate (`none`), as `malloc` leaves them.
Executions that the C++ standard leaves undefined (reading outside an array,
signed overflow, an unchecked `operator[]` out of range) end in `Exec.ub`.
The process-wide `LifetimeManager::instance()` is passed explicitly: every
exported operation takes the manager and returns it next to its result.
`FFILOG` and `FFILOGANDRETURN` only log, the latter then returns its first
argument; logging is not modelled.  `malloc` of a representable size is taken
to succeed.
-/

namespace LunaTF

/-- The element-type tags for which `tensors.cpp` instantiates its macros. -/
inductive TF_DataType
  | TF_FLOAT | TF_DOUBLE
  | TF_INT8 | TF_INT16 | TF_INT32 | TF_INT64
  | TF_UINT8 | TF_UINT16 | TF_UINT32 | TF_UINT64
  | TF_BOOL | TF_STRING
  deriving DecidableEq, Repr

/-- The error taxonomy of the boundary (section 7 of the specification). -/
inductive Error
  | InvalidHandle | InvalidShape | RankMismatch | IndexOutOfRange | AllocationFailure
  deriving DecidableEq, Repr

/-- Outcome of running a C++ body: a value, a thrown exception, or an
execution whose behaviour C++ does not define. -/
inductive Exec (α : Type)
  | ret (a : α)
  | throw (e : Error)
  | ub
  deriving DecidableEq, Repr

/-- Sequencing of C++ statements: an exception or undefined behaviour in the
first statement skips the rest. -/
def Exec.bind {α β : Type} : Exec α → (α → Exec β) → Exec β
  | .ret a, f => f a
  | .throw e, _ => .throw e
  | .ub, _ => .ub

/-- What the host observes of an exported call: the returned value together
with the content of the `outError` slot (`none` when it was not written), or
an undefined execution. -/
inductive FFIResult (α : Type)
  | returned (value : α) (outError : Option Error)
  | ub
  deriving DecidableEq, Repr

/-- Modelled from the spec: the macro `TRANSLATE_EXCEPTION` of
`helpers/error.h` is missing.  On normal completion the result is returned
directly; on failure a diagnostic is written through the out-parameter and a
type-appropriate sentinel (the null or zero value) is returned. -/
def TRANSLATE_EXCEPTION {α : Type} [Inhabited α] : Exec α → FFIResult α
  | .ret a => .returned a none
  | .throw e => .returned default (some e)
  | .ub => .ub

/-- Conversion of a 64-bit product to `int` (two's complement, modular). -/
def toInt32 (x : Int) : Int := (x + 2 ^ 31) % 2 ^ 32 - 2 ^ 31

/-- Call of `static_cast<int>` on a `size_t`. -/
def static_cast_int (n : Nat) : Int := toInt32 (n : Int)

/-- Conversion of an `int32_t` index to the `size_t` that `operator[]` takes:
a negative index wraps around to `2^64 + x`, any other keeps its value. -/
def to_size_t (x : Int) : Nat := if x < 0 then (x + 2 ^ 64).toNat else x.toNat

/-- Functor `std::multiplies<int64_t>`: the product of two `int64_t`; signed
overflow is undefined. -/
def multiplies (a b : Int) : Exec Int :=
  if -(2 ^ 63) ≤ a * b ∧ a * b < 2 ^ 63 then .ret (a * b) else .ub

/-- Algorithm `std::accumulate(dims, dims+num_dims, init, std::multiplies<int64_t>())`
as `tensors.cpp` calls it: `init` is the literal `1`, so the accumulator has
type `int` and every 64-bit product is converted back to `int`. -/
def accumulate : List Int → Int → Exec Int
  | [], init => .ret init
  | d :: rest, init => (multiplies init d).bind fun p => accumulate rest (toInt32 p)

/-- Call `malloc(sizeof(T) * n)`: `n` cells of indeterminate content. -/
def malloc {α : Type} (n : Nat) : List (Option α) := List.replicate n none

/-- Call `memcpy(dst, src, sizeof(T) * n)`: the first `n` cells of `src`
overwrite those of `dst`; undefined when either array has fewer cells. -/
def memcpy {α : Type} (dst src : List (Option α)) (n : Nat) : Exec (List (Option α)) :=
  if n ≤ dst.length ∧ n ≤ src.length then .ret (src.take n ++ dst.drop n) else .ub

/-- Function `vector_as_array`: a freshly allocated copy of the vector. -/
def vector_as_array {α : Type} (vec : List α) : Exec (List (Option α)) :=
  memcpy (malloc vec.length) (vec.map some) vec.length

/-- Unchecked `std::vector::operator[]`: undefined outside the vector. -/
def vector_index {α : Type} (vec : List α) (pos : Nat) : Exec α :=
  match vec[pos]? with
  | some x => .ret x
  | none => .ub

/-- Loop of `std::generate(data, data+elems, gen)`: the `k`-th call of the
generator is stored in cell `k`. -/
def generate_loop {α : Type} (gen : Nat → α) : Nat → Nat → List (Option α) → List (Option α)
  | _, 0, data => data
  | k, n + 1, data => generate_loop gen (k + 1) n (data.set k (some (gen k)))

/-- Statements `malloc(elems * TF_DataTypeSize(typelabel))` and
`std::generate(data, data+elems, gen)` of the two fill macros.  A negative
`elems` gives a range whose end precedes its start: undefined. -/
def generate {α : Type} (elems : Int) (gen : Nat → α) : Exec (List (Option α)) :=
  if elems < 0 then .ub
  else .ret (generate_loop gen 0 elems.toNat (malloc elems.toNat))

/-- Reads the first `n` cells of an array; `none` when one of them is outside
the array or indeterminate. -/
def readCells {α : Type} : List (Option α) → Nat → Option (List α)
  | _, 0 => some []
  | [], _ + 1 => none
  | none :: _, _ + 1 => none
  | some a :: rest, n + 1 => (readCells rest n).map (a :: ·)

/-- Modelled from the spec: the class `Tensor` and the table `Type<label>` of
`tensor/Tensor.h` are missing.  A tensor has a shape, an element-type tag and a
buffer.  Cells hold element values: the storage representation `tftype` and the
boundary representation `lunatype` of a tag carry the same value, so the
conversions between them are not written out. -/
structure Tensor (α : Type) where
  shape : List Int
  elementType : TF_DataType
  buffer : List α
  deriving DecidableEq, Repr

/-- Modelled from the spec: `Tensor::flatSize` of `tensor/Tensor.h` is
missing; `flatSize = product(shape)`, 1 for the empty shape. -/
def Tensor.flatSize {α : Type} (t : Tensor α) : Int := t.shape.prod

/-- Modelled from the spec: the constructor `Tensor(array, dims, num_dims, type)`
of `tensor/Tensor.h` is missing.  It validates that the shape entries are
non-negative and fails with `InvalidShape` if not, then copies `flatSize`
elements out of the raw buffer (reading cells the buffer does not have, or
indeterminate ones, is undefined). -/
def Tensor.new {α : Type} (array : List (Option α)) (dims : List Int) (type : TF_DataType) :
    Exec (Tensor α) :=
  if dims.any (· < 0) then .throw .InvalidShape
  else match readCells array dims.prod.toNat with
    | some buf => .ret ⟨dims, type, buf⟩
    | none => .ub

/-- Modelled from the spec: `Tensor::at<typelabel>(index)` of `tensor/Tensor.h`
is missing.  Direct flat-offset access; fails with `IndexOutOfRange` when the
flat index is outside `[0, flatSize)`.  The source name `at` is a Lean keyword. -/
def Tensor.atIndex {α : Type} (t : Tensor α) (_typelabel : TF_DataType) (index : Int) : Exec α :=
  if index < 0 ∨ t.flatSize ≤ index then .throw .IndexOutOfRange
  else match t.buffer[index.toNat]? with
    | some v => .ret v
    | none => .ub

/-- Row-major flat offset of a multi-index. -/
def rowMajorOffset : List Int → List Int → Int
  | _ :: ds, i :: is => i * ds.prod + rowMajorOffset ds is
  | _, _ => 0

/-- Whether some component of a multi-index is outside `[0, shape[d])`. -/
def indexOutside : List Int → List Int → Bool
  | d :: ds, i :: is => decide (i < 0 ∨ d ≤ i) || indexOutside ds is
  | _, _ => false

/-- Modelled from the spec: `Tensor::at<typelabel>(idxs, len)` of
`tensor/Tensor.h` is missing.  Fails with `RankMismatch` when the index count
is not the rank and with `IndexOutOfRange` when a component is outside its
dimension; otherwise reads the row-major flat offset.  The pair `idxs, len`
is the list of the `len` indices. -/
def Tensor.atIndices {α : Type} (t : Tensor α) (typelabel : TF_DataType) (idxs : List Int) :
    Exec α :=
  if idxs.length ≠ t.shape.length then .throw .RankMismatch
  else if indexOutside t.shape idxs then .throw .IndexOutOfRange
  else t.atIndex typelabel (rowMajorOffset t.shape idxs)

/-- An opaque handle: in practice the address of the owned object. -/
abbrev Handle := Nat

/-- Modelled from the spec: the class `LifetimeManager` of
`helpers/LifeTimeManager.h` is missing.  The registry maps handles to owned
tensors. -/
structure LifetimeManager (α : Type) where
  entries : List (Handle × Tensor α)
  deriving DecidableEq, Repr

/-- Entry of a handle in the registry, if it has one. -/
def findEntry {α : Type} (h : Handle) : List (Handle × Tensor α) → Option (Tensor α)
  | [] => none
  | (k, t) :: rest => if k = h then some t else findEntry h rest

/-- A handle that no entry of the registry uses (and that is not null). -/
def freshHandle {α : Type} (entries : List (Handle × Tensor α)) : Handle :=
  (entries.map Prod.fst).foldr max 0 + 1

/-- Modelled from the spec: `LifetimeManager::accessOwned` is missing.  It
resolves a handle to the owned object for read access and fails with
`InvalidHandle` when the handle has no entry. -/
def LifetimeManager.accessOwned {α : Type} (lm : LifetimeManager α) (h : Handle) :
    Exec (Tensor α) :=
  match findEntry h lm.entries with
  | some t => .ret t
  | none => .throw .InvalidHandle

/-- Modelled from the spec: `LifetimeManager::addOwnership` is missing.  It
takes ownership of the object, allocates a fresh handle, stores the mapping
and returns the handle. -/
def LifetimeManager.addOwnership {α : Type} (lm : LifetimeManager α) (t : Tensor α) :
    Handle × LifetimeManager α :=
  (freshHandle lm.entries, ⟨(freshHandle lm.entries, t) :: lm.entries⟩)

/-- Exported `make_tensor(array, type, dims, num_dims, outError)`; the pair
`dims, num_dims` is the list of the `num_dims` sizes. -/
def make_tensor {α : Type} (array : List (Option α)) (type : TF_DataType) (dims : List Int)
    (lm : LifetimeManager α) : FFIResult (Option Handle) × LifetimeManager α :=
  match Tensor.new array dims type with
  | .ret tensor_ptr =>
    (TRANSLATE_EXCEPTION (.ret (some (lm.addOwnership tensor_ptr).1)),
      (lm.addOwnership tensor_ptr).2)
  | .throw e => (TRANSLATE_EXCEPTION (.throw e), lm)
  | .ub => (TRANSLATE_EXCEPTION .ub, lm)

/-- Exported `get_tensor_num_dims(tensor, outError)`. -/
def get_tensor_num_dims {α : Type} (tensor : Handle) (lm : LifetimeManager α) :
    FFIResult Int × LifetimeManager α :=
  (TRANSLATE_EXCEPTION
    ((lm.accessOwned tensor).bind fun t => .ret (static_cast_int t.shape.length)), lm)

/-- Exported `get_tensor_dim(tensor, dim_index, outError)`; `dim_index` is an
`int32_t`. -/
def get_tensor_dim {α : Type} (tensor : Handle) (dim_index : Int) (lm : LifetimeManager α) :
    FFIResult Int × LifetimeManager α :=
  (TRANSLATE_EXCEPTION
    ((lm.accessOwned tensor).bind fun t => vector_index t.shape (to_size_t dim_index)), lm)

/-- Exported `get_tensor_dims(tensor, outError)`; a returned pointer is
`some` array, the null sentinel is `none`. -/
def get_tensor_dims {α : Type} (tensor : Handle) (lm : LifetimeManager α) :
    FFIResult (Option (List (Option Int))) × LifetimeManager α :=
  (TRANSLATE_EXCEPTION
    ((lm.accessOwned tensor).bind fun t =>
      (vector_as_array t.shape).bind fun r => .ret (some r)), lm)

/-- Exported `get_tensor_flatlist_length(tensor, outError)`. -/
def get_tensor_flatlist_length {α : Type} (tensor : Handle) (lm : LifetimeManager α) :
    FFIResult Int × LifetimeManager α :=
  (TRANSLATE_EXCEPTION ((lm.accessOwned tensor).bind fun t => .ret t.flatSize), lm)

/-- Exported `get_tensor_value_at_<typelabel>(tensor, idxs, len, outError)`. -/
def get_tensor_value_at {α : Type} [Inhabited α] (typelabel : TF_DataType) (tensor : Handle)
    (idxs : List Int) (lm : LifetimeManager α) : FFIResult α × LifetimeManager α :=
  (TRANSLATE_EXCEPTION
    ((lm.accessOwned tensor).bind fun t => t.atIndices typelabel idxs), lm)

/-- Exported `get_tensor_value_at_index_<typelabel>(tensor, index, outError)`. -/
def get_tensor_value_at_index {α : Type} [Inhabited α] (typelabel : TF_DataType)
    (tensor : Handle) (index : Int) (lm : LifetimeManager α) :
    FFIResult α × LifetimeManager α :=
  (TRANSLATE_EXCEPTION
    ((lm.accessOwned tensor).bind fun t => t.atIndex typelabel index), lm)

/-- Loop `for (size_t i = 0; i < len; ++i) r[i] = t->at<typelabel>(i)` of
`TENSOR_TO_FLATLIST`, from index `i` with `len - i` iterations left. -/
def tensor_to_flatlist_loop {α : Type} (typelabel : TF_DataType) (t : Tensor α) :
    Nat → Nat → List (Option α) → Exec (List (Option α))
  | _, 0, r => .ret r
  | i, n + 1, r =>
    (t.atIndex typelabel (i : Int)).bind fun v =>
      tensor_to_flatlist_loop typelabel t (i + 1) n (r.set i (some v))

/-- Exported `tensor_to_flatlist_<typelabel>(tensor, outError)`.  A negative
`len` converts to a huge `size_t`, so the loop writes outside `r`. -/
def tensor_to_flatlist {α : Type} (typelabel : TF_DataType) (tensor : Handle)
    (lm : LifetimeManager α) : FFIResult (Option (List (Option α))) × LifetimeManager α :=
  (TRANSLATE_EXCEPTION
    ((lm.accessOwned tensor).bind fun t =>
      if t.flatSize < 0 then .ub
      else (tensor_to_flatlist_loop typelabel t 0 t.flatSize.toNat
        (malloc t.flatSize.toNat)).bind fun r => .ret (some r)), lm)

/-- Body shared by `MAKE_CONST_TENSOR` and `MAKE_RANDOM_TENSOR`: compute
`elems`, allocate and fill `data`, construct the tensor from it, register it. -/
def make_filled_tensor {α : Type} (typelabel : TF_DataType) (dims : List Int) (gen : Nat → α)
    (lm : LifetimeManager α) : FFIResult (Option Handle) × LifetimeManager α :=
  match (accumulate dims 1).bind fun elems =>
      (generate elems gen).bind fun data => Tensor.new data dims typelabel with
  | .ret tensor =>
    (TRANSLATE_EXCEPTION (.ret (some (lm.addOwnership tensor).1)), (lm.addOwnership tensor).2)
  | .throw e => (TRANSLATE_EXCEPTION (.throw e), lm)
  | .ub => (TRANSLATE_EXCEPTION .ub, lm)

/-- Exported `make_const_tensor_<typelabel>(dims, num_dims, value, outError)`:
the generator returns `value` at every call. -/
def make_const_tensor {α : Type} (typelabel : TF_DataType) (dims : List Int) (value : α)
    (lm : LifetimeManager α) : FFIResult (Option Handle) × LifetimeManager α :=
  make_filled_tensor typelabel dims (fun _ => value) lm

/-- A draw of `std::uniform_int_distribution(min, max)` from a raw engine
output: some value of the closed interval, every one of them reachable. -/
def uniform_int_distribution (min max : Int) (raw : Nat) : Int :=
  min + (raw : Int) % (max - min + 1)

/-- Exported `make_random_tensor_<typelabel>(dims, num_dims, min, max, outError)`
for the integer element types; `engine k` is the raw output behind the `k`-th
draw.  The distribution requires `min <= max`, anything else is undefined. -/
def make_random_tensor (typelabel : TF_DataType) (dims : List Int) (min max : Int)
    (engine : Nat → Nat) (lm : LifetimeManager Int) :
    FFIResult (Option Handle) × LifetimeManager Int :=
  if max < min then (.ub, lm)
  else make_filled_tensor typelabel dims (fun k => uniform_int_distribution min max (engine k)) lm

/-- Six initialised cells, the raw data of a 2x3 tensor. -/
def sampleArray : List (Option Int) := [some 10, some 11, some 12, some 13, some 14, some 15]

/-- A registry holding one 2x3 tensor under handle 1. -/
def sampleManager : LifetimeManager Int :=
  ⟨[(1, ⟨[2, 3], .TF_INT32, [10, 11, 12, 13, 14, 15]⟩)]⟩

/-- The invariant of section 3: the buffer holds `flatSize` elements and no
dimension is negative. -/
def Tensor.Valid {α : Type} (t : Tensor α) : Prop :=
  (∀ d ∈ t.shape, 0 ≤ d) ∧ (t.buffer.length : Int) = t.flatSize

/-- A registry all of whose tensors satisfy the invariant. -/
def LifetimeManager.Valid {α : Type} (lm : LifetimeManager α) : Prop :=
  ∀ e ∈ lm.entries, e.2.Valid

/-! ## Sequencing and the registry -/

theorem Exec.bind_ret {α β : Type} (a : α) (f : α → Exec β) : (Exec.ret a).bind f = f a := rfl

theorem Exec.bind_eq_ret {α β : Type} {x : Exec α} {f : α → Exec β} {b : β}
    (h : x.bind f = .ret b) : ∃ a, x = .ret a ∧ f a = .ret b := by
  cases x with
  | ret a => exact ⟨a, rfl, h⟩
  | throw e => simp [Exec.bind] at h
  | ub => simp [Exec.bind] at h

theorem findEntry_lt_freshHandle {α : Type} {h : Handle} {t : Tensor α} :
    ∀ {es : List (Handle × Tensor α)}, findEntry h es = some t → h < freshHandle es := by
  intro es
  induction es with
  | nil => intro hf; simp [findEntry] at hf
  | cons e rest ih =>
    obtain ⟨k, u⟩ := e
    intro hf
    simp only [findEntry] at hf
    simp only [freshHandle, List.map_cons, List.foldr_cons] at ih ⊢
    by_cases hk : k = h
    · subst hk
      exact Nat.lt_succ_of_le (le_max_left k (List.foldr max 0 (List.map Prod.fst rest)))
    · rw [if_neg hk] at hf
      exact Nat.lt_succ_of_le (le_trans (Nat.le_of_lt_succ (ih hf))
        (le_max_right k (List.foldr max 0 (List.map Prod.fst rest))))

theorem findEntry_freshHandle {α : Type} (es : List (Handle × Tensor α)) :
    findEntry (freshHandle es) es = none := by
  cases hf : findEntry (freshHandle es) es with
  | none => rfl
  | some t => exact absurd (findEntry_lt_freshHandle hf) (lt_irrefl _)

theorem accessOwned_addOwnership_new {α : Type} (lm : LifetimeManager α) (t : Tensor α) :
    (lm.addOwnership t).2.accessOwned (lm.addOwnership t).1 = .ret t := by
  simp [LifetimeManager.addOwnership, LifetimeManager.accessOwned, findEntry]

theorem findEntry_addOwnership_old {α : Type} (lm : LifetimeManager α) (t u : Tensor α)
    (h : Handle) (hf : findEntry h lm.entries = some u) :
    findEntry h (lm.addOwnership t).2.entries = some u := by
  have hlt := findEntry_lt_freshHandle hf
  have hne : ¬ freshHandle lm.entries = h := fun he => absurd (he ▸ hlt) (Nat.lt_irrefl _)
  simp [LifetimeManager.addOwnership, findEntry, hne, hf]

/-! ## Arrays: reading, filling, copying -/

theorem readCells_eq_some {α : Type} : ∀ (n : Nat) (cells : List (Option α)) (buf : List α),
    readCells cells n = some buf →
      buf.length = n ∧ ∀ i, i < n → cells[i]? = some buf[i]? := by
  intro n
  induction n with
  | zero =>
    intro cells buf h
    simp only [readCells, Option.some.injEq] at h
    subst h
    exact ⟨rfl, fun i hi => absurd hi (Nat.not_lt_zero i)⟩
  | succ n ih =>
    intro cells buf h
    cases cells with
    | nil => simp [readCells] at h
    | cons c rest =>
      cases c with
      | none => simp [readCells] at h
      | some a =>
        simp only [readCells, Option.map_eq_some'] at h
        obtain ⟨b, hb, rfl⟩ := h
        obtain ⟨hlen, hcells⟩ := ih rest b hb
        refine ⟨by simp [hlen], ?_⟩
        intro i hi
        cases i with
        | zero => simp
        | succ j => simpa using hcells j (by omega)

theorem generate_loop_length {α : Type} (gen : Nat → α) :
    ∀ (n k : Nat) (data : List (Option α)), (generate_loop gen k n data).length = data.length := by
  intro n
  induction n with
  | zero => intro k data; rfl
  | succ n ih => intro k data; simp [generate_loop, ih]

theorem generate_loop_getElem? {α : Type} (gen : Nat → α) :
    ∀ (n k : Nat) (data : List (Option α)) (i : Nat), k + n ≤ data.length →
      (generate_loop gen k n data)[i]? =
        if k ≤ i ∧ i < k + n then some (some (gen i)) else data[i]? := by
  intro n
  induction n with
  | zero =>
    intro k data i _
    have : ¬ (k ≤ i ∧ i < k + 0) := by omega
    rw [generate_loop, if_neg this]
  | succ n ih =>
    intro k data i hlen
    have hk : k < data.length := by omega
    rw [generate_loop, ih (k + 1) _ i (by simp; omega), List.getElem?_set]
    by_cases h1 : k = i
    · subst h1
      have h2 : ¬ (k + 1 ≤ k ∧ k < k + 1 + n) := by omega
      have h3 : k ≤ k ∧ k < k + (n + 1) := by omega
      simp [h2, h3, hk]
    · by_cases h2 : k + 1 ≤ i ∧ i < k + 1 + n
      · have h3 : k ≤ i ∧ i < k + (n + 1) := by omega
        simp [h2, h3]
      · have h3 : ¬ (k ≤ i ∧ i < k + (n + 1)) := by omega
        simp [h1, h2, h3]

theorem generate_getElem? {α : Type} (gen : Nat → α) (elems : Int) (data : List (Option α))
    (h : generate elems gen = .ret data) (i : Nat) :
    data[i]? = if i < elems.toNat then some (some (gen i)) else none := by
  unfold generate at h
  split at h
  · simp at h
  · simp only [Exec.ret.injEq] at h
    subst h
    rw [generate_loop_getElem? gen elems.toNat 0 _ i (by simp [malloc])]
    by_cases hi : i < elems.toNat
    · simp [hi]
    · simp [hi, malloc, List.getElem?_replicate]

theorem tensor_to_flatlist_loop_ret {α : Type} (typelabel : TF_DataType) (t : Tensor α) :
    ∀ (n i : Nat) (r0 r : List (Option α)),
      tensor_to_flatlist_loop typelabel t i n r0 = .ret r → i + n ≤ r0.length →
        r.length = r0.length ∧
        (∀ j, i ≤ j → j < i + n →
          ∃ v, t.atIndex typelabel (j : Int) = .ret v ∧ r[j]? = some (some v)) ∧
        (∀ j, j < i → r[j]? = r0[j]?) := by
  intro n
  induction n with
  | zero =>
    intro i r0 r h _
    simp only [tensor_to_flatlist_loop, Exec.ret.injEq] at h
    subst h
    exact ⟨rfl, fun j h1 h2 => absurd h2 (by omega), fun _ _ => rfl⟩
  | succ n ih =>
    intro i r0 r h hlen
    rw [tensor_to_flatlist_loop] at h
    obtain ⟨v, hv, hrest⟩ := Exec.bind_eq_ret h
    obtain ⟨h1, h2, h3⟩ := ih (i + 1) _ r hrest (by simp; omega)
    refine ⟨by simpa using h1, ?_, ?_⟩
    · intro j hj1 hj2
      by_cases hji : j = i
      · subst hji
        refine ⟨v, hv, ?_⟩
        rw [h3 j (by omega), List.getElem?_set]
        have : j < r0.length := by omega
        simp [this]
      · exact h2 j (by omega) (by omega)
    · intro j hj
      rw [h3 j (by omega), List.getElem?_set]
      have : ¬ i = j := by omega
      simp [this]

theorem tensor_to_flatlist_loop_total {α : Type} (typelabel : TF_DataType) (t : Tensor α) :
    ∀ (n i : Nat) (r0 : List (Option α)),
      (∀ j, i ≤ j → j < i + n → ∃ v, t.atIndex typelabel (j : Int) = .ret v) →
        ∃ r, tensor_to_flatlist_loop typelabel t i n r0 = .ret r := by
  intro n
  induction n with
  | zero => intro i r0 _; exact ⟨r0, rfl⟩
  | succ n ih =>
    intro i r0 hall
    obtain ⟨v, hv⟩ := hall i (le_refl i) (by omega)
    obtain ⟨r, hr⟩ := ih (i + 1) (r0.set i (some v)) (fun j h1 h2 => hall j (by omega) (by omega))
    exact ⟨r, by rw [tensor_to_flatlist_loop, hv, Exec.bind_ret, hr]⟩

theorem vector_as_array_eq {α : Type} (vec : List α) :
    vector_as_array vec = .ret (vec.map some) := by
  simp [vector_as_array, memcpy, malloc]

theorem vector_index_natCast {α : Type} (vec : List α) (i : Nat) (hi : i < vec.length) :
    vector_index vec (to_size_t (i : Int)) = .ret vec[i] := by
  have h0 : ¬ ((i : Int) < 0) := by omega
  simp [vector_index, to_size_t, h0, hi]

theorem static_cast_int_of_lt (n : Nat) (h : n < 2 ^ 31) : static_cast_int n = (n : Int) := by
  unfold static_cast_int toInt32
  omega

/-! ## Construction -/

theorem Tensor.new_eq_ret {α : Type} {array : List (Option α)} {dims : List Int}
    {type : TF_DataType} {t : Tensor α} (h : Tensor.new array dims type = .ret t) :
    t.shape = dims ∧ t.elementType = type ∧ (∀ d ∈ dims, 0 ≤ d) ∧
      readCells array dims.prod.toNat = some t.buffer := by
  unfold Tensor.new at h
  split at h
  · simp at h
  · rename_i hneg
    split at h
    · rename_i buf hbuf
      simp only [Exec.ret.injEq] at h
      subst h
      refine ⟨rfl, rfl, ?_, hbuf⟩
      intro d hd
      by_contra hlt
      exact hneg (List.any_eq_true.mpr ⟨d, hd, by simpa using hlt⟩)
    · simp at h

theorem Tensor.new_valid {α : Type} {array : List (Option α)} {dims : List Int}
    {type : TF_DataType} {t : Tensor α} (h : Tensor.new array dims type = .ret t) : t.Valid := by
  obtain ⟨hs, _, hnn, hbuf⟩ := Tensor.new_eq_ret h
  obtain ⟨hlen, _⟩ := readCells_eq_some _ _ _ hbuf
  refine ⟨by rw [hs]; exact hnn, ?_⟩
  rw [Tensor.flatSize, hs, hlen]
  exact Int.toNat_of_nonneg (List.prod_nonneg hnn)

theorem make_tensor_eq_returned {α : Type} {array : List (Option α)} {type : TF_DataType}
    {dims : List Int} {lm lm' : LifetimeManager α} {h : Handle}
    (hmake : make_tensor array type dims lm = (.returned (some h) none, lm')) :
    ∃ t, Tensor.new array dims type = .ret t ∧ h = (lm.addOwnership t).1 ∧
      lm' = (lm.addOwnership t).2 := by
  unfold make_tensor at hmake
  split at hmake
  · rename_i t ht
    simp only [TRANSLATE_EXCEPTION, Prod.mk.injEq, FFIResult.returned.injEq,
      Option.some.injEq, and_true] at hmake
    exact ⟨t, ht, hmake.1.symm, hmake.2.symm⟩
  · simp [TRANSLATE_EXCEPTION] at hmake
  · simp [TRANSLATE_EXCEPTION] at hmake

theorem make_filled_tensor_eq_returned {α : Type} {typelabel : TF_DataType} {dims : List Int}
    {gen : Nat → α} {lm lm' : LifetimeManager α} {h : Handle}
    (hmake : make_filled_tensor typelabel dims gen lm = (.returned (some h) none, lm')) :
    ∃ t, h = (lm.addOwnership t).1 ∧ lm' = (lm.addOwnership t).2 ∧ t.Valid ∧
      t.shape = dims ∧ ∀ i, i < dims.prod.toNat → t.buffer[i]? = some (gen i) := by
  unfold make_filled_tensor at hmake
  split at hmake
  · rename_i t ht
    simp only [TRANSLATE_EXCEPTION, Prod.mk.injEq, FFIResult.returned.injEq,
      Option.some.injEq, and_true] at hmake
    obtain ⟨elems, _, h1⟩ := Exec.bind_eq_ret ht
    obtain ⟨data, hdata, hnew⟩ := Exec.bind_eq_ret h1
    obtain ⟨hs, _, _, hbuf⟩ := Tensor.new_eq_ret hnew
    obtain ⟨hlen, hcells⟩ := readCells_eq_some _ _ _ hbuf
    refine ⟨t, hmake.1.symm, hmake.2.symm, Tensor.new_valid hnew, hs, ?_⟩
    intro i hi
    have h2 := hcells i hi
    rw [generate_getElem? gen elems data hdata i] at h2
    have h3 : i < t.buffer.length := by omega
    rw [List.getElem?_eq_getElem h3] at h2 ⊢
    split at h2
    · simp only [Option.some.injEq] at h2
      rw [h2]
    · simp at h2
  · simp [TRANSLATE_EXCEPTION] at hmake
  · simp [TRANSLATE_EXCEPTION] at hmake

theorem atIndex_of_getElem? {α : Type} (t : Tensor α) (typelabel : TF_DataType) (i : Int) (v : α)
    (h0 : 0 ≤ i) (h1 : i < t.flatSize) (hv : t.buffer[i.toNat]? = some v) :
    t.atIndex typelabel i = .ret v := by
  have : ¬ (i < 0 ∨ t.flatSize ≤ i) := by omega
  simp [Tensor.atIndex, this, hv]

theorem make_tensor_preserves_valid {α : Type} (array : List (Option α)) (type : TF_DataType)
    (dims : List Int) (lm : LifetimeManager α) (hv : lm.Valid) :
    (make_tensor array type dims lm).2.Valid := by
  unfold make_tensor
  split
  · rename_i t ht
    intro e he
    simp only [LifetimeManager.addOwnership, List.mem_cons] at he
    rcases he with rfl | he
    · exact Tensor.new_valid ht
    · exact hv e he
  · exact hv
  · exact hv

theorem make_filled_tensor_preserves_valid {α : Type} (typelabel : TF_DataType)
    (dims : List Int) (gen : Nat → α) (lm : LifetimeManager α) (hv : lm.Valid) :
    (make_filled_tensor typelabel dims gen lm).2.Valid := by
  unfold make_filled_tensor
  split
  · rename_i t ht
    obtain ⟨elems, _, h1⟩ := Exec.bind_eq_ret ht
    obtain ⟨data, _, hnew⟩ := Exec.bind_eq_ret h1
    intro e he
    simp only [LifetimeManager.addOwnership, List.mem_cons] at he
    rcases he with rfl | he
    · exact Tensor.new_valid hnew
    · exact hv e he
  · exact hv
  · exact hv

theorem toInt32_of_small (x : Int) (h0 : 0 ≤ x) (h1 : x < 2 ^ 31) : toInt32 x = x := by
  unfold toInt32
  omega

theorem accumulate_eq_prod : ∀ (dims : List Int) (init : Int),
    (∀ d ∈ dims, 0 < d) → 0 < init → init * dims.prod < 2 ^ 31 →
      accumulate dims init = .ret (init * dims.prod) := by
  intro dims
  induction dims with
  | nil => intro init _ _ _; simp [accumulate]
  | cons d rest ih =>
    intro init hpos hinit hsmall
    have hd : 0 < d := hpos d (List.mem_cons_self d rest)
    have hrest : ∀ x ∈ rest, 0 < x := fun x hx => hpos x (List.mem_cons_of_mem d hx)
    have hprod : 0 < rest.prod := List.prod_pos hrest
    have hid : 0 < init * d := Int.mul_pos hinit hd
    have hle : init * d ≤ init * d * rest.prod := le_mul_of_one_le_right (le_of_lt hid) hprod
    rw [List.prod_cons, ← mul_assoc] at hsmall
    have hrange : -(2 ^ 63) ≤ init * d ∧ init * d < 2 ^ 63 := by
      constructor
      · have : (-(2 ^ 63) : Int) ≤ 0 := by norm_num
        omega
      · have : ((2 : Int) ^ 31) < 2 ^ 63 := by norm_num
        omega
    rw [accumulate, multiplies, if_pos hrange, Exec.bind_ret,
      toInt32_of_small _ (le_of_lt hid) (lt_of_le_of_lt hle hsmall),
      ih (init * d) hrest hid hsmall, List.prod_cons, mul_assoc]

theorem get_tensor_dim_out_of_range {α : Type} (lm : LifetimeManager α) (h : Handle)
    (t : Tensor α) (dim_index : Int) (hreg : findEntry h lm.entries = some t)
    (hlen : t.shape.length < 2 ^ 63) (hmin : -(2 ^ 31) ≤ dim_index)
    (hout : dim_index < 0 ∨ (t.shape.length : Int) ≤ dim_index) :
    get_tensor_dim h dim_index lm = (.ub, lm) := by
  have hacc : lm.accessOwned h = .ret t := by simp [LifetimeManager.accessOwned, hreg]
  have hidx : t.shape[to_size_t dim_index]? = none := by
    apply List.getElem?_eq_none
    unfold to_size_t
    split <;> omega
  simp [get_tensor_dim, hacc, Exec.bind, vector_index, hidx, TRANSLATE_EXCEPTION]

/-! ## Shape queries -/

/-- C3: when `make_tensor(data, type, dims, n)` succeeds with handle `h` and the
rank `n` is a value of the `int` in which the rank is reported, then
`get_tensor_num_dims(h)` returns `n` and `get_tensor_dim(h, i)` returns `dims[i]`
for every `i < n`, both without a diagnostic and without touching the registry. -/
theorem make_tensor_shape_roundtrip {α : Type} (array : List (Option α)) (type : TF_DataType)
    (dims : List Int) (lm lm' : LifetimeManager α) (h : Handle)
    (hrank : dims.length < 2 ^ 31)
    (hmake : make_tensor array type dims lm = (.returned (some h) none, lm')) :
    get_tensor_num_dims h lm' = (.returned (dims.length : Int) none, lm') ∧
    ∀ (i : Nat) (hi : i < dims.length),
      get_tensor_dim h (i : Int) lm' = (.returned dims[i] none, lm') := by
  obtain ⟨t, hnew, rfl, rfl⟩ := make_tensor_eq_returned hmake
  obtain ⟨hs, _, _, _⟩ := Tensor.new_eq_ret hnew
  subst hs
  refine ⟨?_, ?_⟩
  · simp [get_tensor_num_dims, accessOwned_addOwnership_new, Exec.bind, TRANSLATE_EXCEPTION,
      static_cast_int_of_lt _ hrank]
  · intro i hi
    simp [get_tensor_dim, accessOwned_addOwnership_new, Exec.bind, TRANSLATE_EXCEPTION,
      vector_index_natCast _ i hi]

/-- Witness of C3: a 2x3 tensor built from six cells reports rank 2. -/
theorem make_tensor_shape_roundtrip_witness :
    make_tensor sampleArray .TF_INT32 [2, 3] ⟨[]⟩ = (.returned (some 1) none, sampleManager) ∧
    get_tensor_num_dims 1 sampleManager = (.returned 2 none, sampleManager) ∧
    get_tensor_dim 1 1 sampleManager = (.returned 3 none, sampleManager) :=
  ⟨by decide,
    (make_tensor_shape_roundtrip sampleArray .TF_INT32 [2, 3] ⟨[]⟩ sampleManager 1
      (by decide) (by decide)).1,
    (make_tensor_shape_roundtrip sampleArray .TF_INT32 [2, 3] ⟨[]⟩ sampleManager 1
      (by decide) (by decide)).2 1 (by decide)⟩

/-- C10: for a registered handle whose tensor has shape `s`, `get_tensor_dims`
returns a new array that is the element-for-element copy of `s`: it has as many
entries as `s`, its `i`-th entry is what `get_tensor_dim(h, i)` returns, and the
registry, hence the tensor and its shape, is as before. -/
theorem get_tensor_dims_copies_shape {α : Type} (lm : LifetimeManager α) (h : Handle)
    (t : Tensor α) (hreg : findEntry h lm.entries = some t) :
    get_tensor_dims h lm = (.returned (some (t.shape.map some)) none, lm) ∧
    (t.shape.map some).length = t.shape.length ∧
    (∀ (i : Nat) (hi : i < t.shape.length),
      (t.shape.map some)[i]? = some (some t.shape[i]) ∧
      get_tensor_dim h (i : Int) lm = (.returned t.shape[i] none, lm)) ∧
    lm.accessOwned h = .ret t := by
  have hacc : lm.accessOwned h = .ret t := by simp [LifetimeManager.accessOwned, hreg]
  refine ⟨?_, by simp, ?_, hacc⟩
  · simp [get_tensor_dims, hacc, Exec.bind, TRANSLATE_EXCEPTION, vector_as_array_eq]
  · intro i hi
    refine ⟨by simp [hi], ?_⟩
    simp [get_tensor_dim, hacc, Exec.bind, TRANSLATE_EXCEPTION, vector_index_natCast _ i hi]

/-- Witness of C10: the dimension array of the sample tensor is `[2, 3]`. -/
theorem get_tensor_dims_copies_shape_witness :
    findEntry 1 sampleManager.entries = some ⟨[2, 3], .TF_INT32, [10, 11, 12, 13, 14, 15]⟩ ∧
    get_tensor_dims 1 sampleManager = (.returned (some [some 2, some 3]) none, sampleManager) :=
  ⟨by decide,
    (get_tensor_dims_copies_shape sampleManager 1 ⟨[2, 3], .TF_INT32, [10, 11, 12, 13, 14, 15]⟩
      (by decide)).1⟩

/-- C1, at the failing input: on the registered 2x3 tensor `get_tensor_dim` with
index 2, and with index -1, runs the unchecked `operator[]` outside the shape
vector: the execution is undefined and no `IndexOutOfRange` diagnostic is
produced; only the in-range indices 0 and 1 return a dimension. -/
theorem get_tensor_dim_out_of_range_unchecked :
    get_tensor_dim 1 2 sampleManager = (.ub, sampleManager) ∧
    get_tensor_dim 1 (-1) sampleManager = (.ub, sampleManager) ∧
    get_tensor_dim 1 2 sampleManager ≠ (.returned 0 (some .IndexOutOfRange), sampleManager) ∧
    get_tensor_dim 1 0 sampleManager = (.returned 2 none, sampleManager) ∧
    get_tensor_dim 1 1 sampleManager = (.returned 3 none, sampleManager) := by
  refine ⟨by decide, by decide, by decide, by decide, by decide⟩

/-! ## Element access -/

/-- C4: for a registered handle, whenever `tensor_to_flatlist_<type>` succeeds
the returned array has exactly `get_tensor_flatlist_length(h)` = `flatSize()`
entries and its `i`-th entry is the value that
`get_tensor_value_at_index_<type>(h, i)` returns, the registry being left as it
was; and it does succeed when the tensor satisfies the buffer invariant. -/
theorem tensor_to_flatlist_matches_index_reads {α : Type} [Inhabited α]
    (typelabel : TF_DataType) (lm : LifetimeManager α) (h : Handle) (t : Tensor α)
    (hreg : findEntry h lm.entries = some t) :
    (t.Valid → ∃ r, tensor_to_flatlist typelabel h lm = (.returned (some r) none, lm)) ∧
    ∀ r lm', tensor_to_flatlist typelabel h lm = (.returned (some r) none, lm') →
      lm' = lm ∧
      get_tensor_flatlist_length h lm = (.returned (r.length : Int) none, lm) ∧
      (r.length : Int) = t.flatSize ∧
      ∀ i, i < r.length → ∃ v, r[i]? = some (some v) ∧
        get_tensor_value_at_index typelabel h (i : Int) lm = (.returned v none, lm) := by
  have hacc : lm.accessOwned h = .ret t := by simp [LifetimeManager.accessOwned, hreg]
  constructor
  · intro hval
    have hnn : ¬ t.flatSize < 0 := by have := hval.2; omega
    have hall : ∀ j, 0 ≤ j → j < 0 + t.flatSize.toNat →
        ∃ v, t.atIndex typelabel (j : Int) = .ret v := by
      intro j _ hj
      have hjl : j < t.buffer.length := by have := hval.2; omega
      exact ⟨t.buffer[j], atIndex_of_getElem? t typelabel j _ (by omega) (by omega)
        (by simp [hjl])⟩
    obtain ⟨r, hr⟩ := tensor_to_flatlist_loop_total typelabel t t.flatSize.toNat 0
      (malloc t.flatSize.toNat) hall
    exact ⟨r, by simp [tensor_to_flatlist, hacc, Exec.bind, hnn, hr, TRANSLATE_EXCEPTION]⟩
  · intro r lm' hcall
    simp only [tensor_to_flatlist, hacc, Exec.bind_ret, Prod.mk.injEq] at hcall
    obtain ⟨hres, hlm⟩ := hcall
    by_cases hneg : t.flatSize < 0
    · simp [hneg, TRANSLATE_EXCEPTION] at hres
    · rw [if_neg hneg] at hres
      cases hloop : tensor_to_flatlist_loop typelabel t 0 t.flatSize.toNat
          (malloc t.flatSize.toNat) with
      | throw e => simp [hloop, Exec.bind, TRANSLATE_EXCEPTION] at hres
      | ub => simp [hloop, Exec.bind, TRANSLATE_EXCEPTION] at hres
      | ret r1 =>
        simp only [hloop, Exec.bind, TRANSLATE_EXCEPTION, FFIResult.returned.injEq,
          Option.some.injEq, and_true] at hres
        subst hres
        obtain ⟨hlen, hcells, _⟩ := tensor_to_flatlist_loop_ret typelabel t _ _ _ _ hloop
          (by simp [malloc])
        have hlen1 : r1.length = t.flatSize.toNat := by simpa [malloc] using hlen
        have hlen2 : (r1.length : Int) = t.flatSize := by omega
        refine ⟨hlm.symm, ?_, hlen2, ?_⟩
        · simp [get_tensor_flatlist_length, hacc, Exec.bind, TRANSLATE_EXCEPTION, hlen2]
        · intro i hi
          obtain ⟨v, hv, hri⟩ := hcells i (Nat.zero_le i) (by omega)
          exact ⟨v, hri, by
            simp [get_tensor_value_at_index, hacc, Exec.bind, hv, TRANSLATE_EXCEPTION]⟩

/-- Witness of C4: flattening the sample tensor gives its six elements. -/
theorem tensor_to_flatlist_matches_index_reads_witness :
    findEntry 1 sampleManager.entries = some ⟨[2, 3], .TF_INT32, [10, 11, 12, 13, 14, 15]⟩ ∧
    tensor_to_flatlist .TF_INT32 1 sampleManager = (.returned (some sampleArray) none,
      sampleManager) ∧
    get_tensor_flatlist_length 1 sampleManager = (.returned 6 none, sampleManager) :=
  ⟨by decide, by decide,
    ((tensor_to_flatlist_matches_index_reads .TF_INT32 sampleManager 1
      ⟨[2, 3], .TF_INT32, [10, 11, 12, 13, 14, 15]⟩ (by decide)).2 sampleArray sampleManager
      (by decide)).2.1⟩

/-- C5: when `make_const_tensor_<type>(dims, numDims, v)` succeeds with handle
`h`, `get_tensor_value_at_index_<type>(h, i)` returns `v`, with no diagnostic,
for every flat index `0 <= i < product(dims)`. -/
theorem make_const_tensor_reads_value {α : Type} [Inhabited α] (typelabel : TF_DataType)
    (dims : List Int) (value : α) (lm lm' : LifetimeManager α) (h : Handle)
    (hmake : make_const_tensor typelabel dims value lm = (.returned (some h) none, lm')) :
    ∀ i : Int, 0 ≤ i → i < dims.prod →
      get_tensor_value_at_index typelabel h i lm' = (.returned value none, lm') := by
  obtain ⟨t, rfl, rfl, _, hs, hbuf⟩ := make_filled_tensor_eq_returned hmake
  intro i h0 h1
  have hat : t.atIndex typelabel i = .ret value :=
    atIndex_of_getElem? t typelabel i value h0 (by rw [Tensor.flatSize, hs]; exact h1)
      (hbuf i.toNat (by omega))
  simp [get_tensor_value_at_index, accessOwned_addOwnership_new, Exec.bind, hat,
    TRANSLATE_EXCEPTION]

/-- Witness of C5: a 2x3 tensor of sevens reads 7 at flat index 5. -/
theorem make_const_tensor_reads_value_witness :
    make_const_tensor .TF_INT32 [2, 3] (7 : Int) ⟨[]⟩ =
      (.returned (some 1) none, ⟨[(1, ⟨[2, 3], .TF_INT32, [7, 7, 7, 7, 7, 7]⟩)]⟩) ∧
    get_tensor_value_at_index .TF_INT32 1 5
        (⟨[(1, ⟨[2, 3], .TF_INT32, [7, 7, 7, 7, 7, 7]⟩)]⟩ : LifetimeManager Int) =
      (.returned 7 none, ⟨[(1, ⟨[2, 3], .TF_INT32, [7, 7, 7, 7, 7, 7]⟩)]⟩) :=
  ⟨by decide,
    make_const_tensor_reads_value .TF_INT32 [2, 3] (7 : Int) ⟨[]⟩ _ 1 (by decide) 5
      (by decide) (by decide)⟩

theorem uniform_int_distribution_mem (min max : Int) (raw : Nat) (hle : min ≤ max) :
    min ≤ uniform_int_distribution min max raw ∧ uniform_int_distribution min max raw ≤ max := by
  unfold uniform_int_distribution
  have hpos : (0 : Int) < max - min + 1 := by omega
  have h1 := Int.emod_nonneg (raw : Int) (ne_of_gt hpos)
  have h2 := Int.emod_lt_of_pos (raw : Int) hpos
  constructor <;> omega

/-- C6: for bounds `min <= max` and whatever the engine draws, when
`make_random_tensor_<type>(dims, numDims, min, max)` of an integer element type
succeeds with handle `h`, every flat index `0 <= i < product(dims)` reads back,
with no diagnostic, a value of the closed interval `[min, max]`. -/
theorem make_random_tensor_within_bounds (typelabel : TF_DataType) (dims : List Int)
    (min max : Int) (engine : Nat → Nat) (lm lm' : LifetimeManager Int) (h : Handle)
    (hle : min ≤ max)
    (hmake : make_random_tensor typelabel dims min max engine lm =
      (.returned (some h) none, lm')) :
    ∀ i : Int, 0 ≤ i → i < dims.prod →
      ∃ v, get_tensor_value_at_index typelabel h i lm' = (.returned v none, lm') ∧
        min ≤ v ∧ v ≤ max := by
  have hnot : ¬ max < min := by omega
  rw [make_random_tensor, if_neg hnot] at hmake
  obtain ⟨t, rfl, rfl, _, hs, hbuf⟩ := make_filled_tensor_eq_returned hmake
  intro i h0 h1
  have hat : t.atIndex typelabel i =
      .ret (uniform_int_distribution min max (engine i.toNat)) :=
    atIndex_of_getElem? t typelabel i _ h0 (by rw [Tensor.flatSize, hs]; exact h1)
      (hbuf i.toNat (by omega))
  refine ⟨uniform_int_distribution min max (engine i.toNat), ?_,
    uniform_int_distribution_mem min max _ hle⟩
  simp [get_tensor_value_at_index, accessOwned_addOwnership_new, Exec.bind, hat,
    TRANSLATE_EXCEPTION]

/-- Witness of C6: four draws for a 2x2 tensor with bounds -3 and 3. -/
theorem make_random_tensor_within_bounds_witness :
    make_random_tensor .TF_INT32 [2, 2] (-3) 3 (fun k => 5 * k + 11) ⟨[]⟩ =
      (.returned (some 1) none, ⟨[(1, ⟨[2, 2], .TF_INT32, [1, -1, -3, 2]⟩)]⟩) ∧
    ∃ v, get_tensor_value_at_index .TF_INT32 1 2
        (⟨[(1, ⟨[2, 2], .TF_INT32, [1, -1, -3, 2]⟩)]⟩ : LifetimeManager Int) =
      (.returned v none, ⟨[(1, ⟨[2, 2], .TF_INT32, [1, -1, -3, 2]⟩)]⟩) ∧ -3 ≤ v ∧ v ≤ 3 :=
  ⟨by decide,
    make_random_tensor_within_bounds .TF_INT32 [2, 2] (-3) 3 (fun k => 5 * k + 11) ⟨[]⟩ _ 1
      (by decide) (by decide) 2 (by decide) (by decide)⟩

/-! ## Failure containment -/

/-- C8: for a handle that has no entry in the registry, each of the seven
handle-taking operations fails with `InvalidHandle`: it returns its sentinel (0
or the null pointer) with that diagnostic in `outError`, and the registry is
returned as it was. -/
theorem invalid_handle_fails {α : Type} [Inhabited α] (lm : LifetimeManager α) (h : Handle)
    (hno : findEntry h lm.entries = none) (typelabel : TF_DataType) (dim_index index : Int)
    (idxs : List Int) :
    get_tensor_num_dims h lm = (.returned 0 (some .InvalidHandle), lm) ∧
    get_tensor_dim h dim_index lm = (.returned 0 (some .InvalidHandle), lm) ∧
    get_tensor_dims h lm = (.returned none (some .InvalidHandle), lm) ∧
    get_tensor_flatlist_length h lm = (.returned 0 (some .InvalidHandle), lm) ∧
    get_tensor_value_at typelabel h idxs lm = (.returned default (some .InvalidHandle), lm) ∧
    get_tensor_value_at_index typelabel h index lm =
      (.returned default (some .InvalidHandle), lm) ∧
    tensor_to_flatlist typelabel h lm = (.returned none (some .InvalidHandle), lm) := by
  have hacc : lm.accessOwned h = .throw .InvalidHandle := by
    simp [LifetimeManager.accessOwned, hno]
  refine ⟨?_, ?_, ?_, ?_, ?_, ?_, ?_⟩
  · simp [get_tensor_num_dims, hacc, Exec.bind, TRANSLATE_EXCEPTION]
  · simp [get_tensor_dim, hacc, Exec.bind, TRANSLATE_EXCEPTION]
  · simp [get_tensor_dims, hacc, Exec.bind, TRANSLATE_EXCEPTION]; rfl
  · simp [get_tensor_flatlist_length, hacc, Exec.bind, TRANSLATE_EXCEPTION]
  · simp [get_tensor_value_at, hacc, Exec.bind, TRANSLATE_EXCEPTION]
  · simp [get_tensor_value_at_index, hacc, Exec.bind, TRANSLATE_EXCEPTION]
  · simp [tensor_to_flatlist, hacc, Exec.bind, TRANSLATE_EXCEPTION]; rfl

/-- Witness of C8: handle 2 has no entry in the sample registry. -/
theorem invalid_handle_fails_witness :
    findEntry 2 sampleManager.entries = none ∧
    get_tensor_num_dims 2 sampleManager = (.returned 0 (some .InvalidHandle), sampleManager) ∧
    tensor_to_flatlist .TF_INT32 2 sampleManager =
      (.returned none (some .InvalidHandle), sampleManager) :=
  ⟨by decide,
    (invalid_handle_fails sampleManager 2 (by decide) .TF_INT32 0 0 []).1,
    (invalid_handle_fails sampleManager 2 (by decide) .TF_INT32 0 0 []).2.2.2.2.2.2⟩

theorem make_tensor_registry {α : Type} (array : List (Option α)) (type : TF_DataType)
    (dims : List Int) (lm : LifetimeManager α) :
    (∀ v e, (make_tensor array type dims lm).1 = .returned v (some e) →
      (make_tensor array type dims lm).2 = lm) ∧
    ∀ h t, findEntry h lm.entries = some t →
      findEntry h (make_tensor array type dims lm).2.entries = some t := by
  unfold make_tensor
  split
  · exact ⟨fun v e hf => by simp [TRANSLATE_EXCEPTION] at hf,
      fun h t hf => findEntry_addOwnership_old lm _ t h hf⟩
  · exact ⟨fun _ _ _ => rfl, fun _ _ hf => hf⟩
  · exact ⟨fun _ _ _ => rfl, fun _ _ hf => hf⟩

theorem make_filled_tensor_registry {α : Type} (typelabel : TF_DataType) (dims : List Int)
    (gen : Nat → α) (lm : LifetimeManager α) :
    (∀ v e, (make_filled_tensor typelabel dims gen lm).1 = .returned v (some e) →
      (make_filled_tensor typelabel dims gen lm).2 = lm) ∧
    ∀ h t, findEntry h lm.entries = some t →
      findEntry h (make_filled_tensor typelabel dims gen lm).2.entries = some t := by
  unfold make_filled_tensor
  split
  · exact ⟨fun v e hf => by simp [TRANSLATE_EXCEPTION] at hf,
      fun h t hf => findEntry_addOwnership_old lm _ t h hf⟩
  · exact ⟨fun _ _ _ => rfl, fun _ _ hf => hf⟩
  · exact ⟨fun _ _ _ => rfl, fun _ _ hf => hf⟩

/-- C9: the seven read operations always return the registry they were given;
`make_tensor`, `make_const_tensor_<type>` and `make_random_tensor_<type>` return
it unchanged whenever they fail (a diagnostic is set), so a failed construction
registers no handle; and in every case each handle that had an entry before the
call still resolves to the same tensor after it. -/
theorem failed_call_leaves_registry {α : Type} [Inhabited α] (lm : LifetimeManager α)
    (lmi : LifetimeManager Int) :
    (∀ h, (get_tensor_num_dims h lm).2 = lm) ∧
    (∀ h i, (get_tensor_dim h i lm).2 = lm) ∧
    (∀ h, (get_tensor_dims h lm).2 = lm) ∧
    (∀ h, (get_tensor_flatlist_length h lm).2 = lm) ∧
    (∀ tl h idxs, (get_tensor_value_at tl h idxs lm).2 = lm) ∧
    (∀ tl h i, (get_tensor_value_at_index tl h i lm).2 = lm) ∧
    (∀ tl h, (tensor_to_flatlist tl h lm).2 = lm) ∧
    (∀ array type dims,
      (∀ v e, (make_tensor array type dims lm).1 = .returned v (some e) →
        (make_tensor array type dims lm).2 = lm) ∧
      ∀ h t, findEntry h lm.entries = some t →
        findEntry h (make_tensor array type dims lm).2.entries = some t) ∧
    (∀ tl dims (value : α),
      (∀ v e, (make_const_tensor tl dims value lm).1 = .returned v (some e) →
        (make_const_tensor tl dims value lm).2 = lm) ∧
      ∀ h t, findEntry h lm.entries = some t →
        findEntry h (make_const_tensor tl dims value lm).2.entries = some t) ∧
    (∀ tl dims min max engine,
      (∀ v e, (make_random_tensor tl dims min max engine lmi).1 = .returned v (some e) →
        (make_random_tensor tl dims min max engine lmi).2 = lmi) ∧
      ∀ h t, findEntry h lmi.entries = some t →
        findEntry h (make_random_tensor tl dims min max engine lmi).2.entries = some t) := by
  refine ⟨fun _ => rfl, fun _ _ => rfl, fun _ => rfl, fun _ => rfl, fun _ _ _ => rfl,
    fun _ _ _ => rfl, fun _ _ => rfl, fun array type dims => make_tensor_registry array type dims lm,
    fun tl dims value => make_filled_tensor_registry tl dims _ lm, ?_⟩
  intro tl dims min max engine
  unfold make_random_tensor
  split
  · exact ⟨fun _ _ _ => rfl, fun _ _ hf => hf⟩
  · exact make_filled_tensor_registry tl dims _ lmi

/-- Witness of C9: `make_tensor` with the shape `[2, -3]` fails with
`InvalidShape` on the sample registry and returns that registry. -/
theorem failed_call_leaves_registry_witness :
    (make_tensor sampleArray .TF_INT32 [2, -3] sampleManager).1 =
      .returned none (some .InvalidShape) ∧
    (make_tensor sampleArray .TF_INT32 [2, -3] sampleManager).2 = sampleManager :=
  ⟨by decide,
    ((failed_call_leaves_registry sampleManager sampleManager).2.2.2.2.2.2.2.1
      sampleArray .TF_INT32 [2, -3]).1 none .InvalidShape (by decide)⟩

/-! ## The element count of the fill macros -/

/-- C2, at the failing input: for `dims = [65536, 65536]`, all non-negative with
product `2^32` well inside the signed 64-bit range, the `elems` that
`std::accumulate` computes with its `int` accumulator is 0, not `product(dims)`;
the buffer filled from it has no cell, and constructing the tensor of `2^32`
elements from that buffer reads outside it. -/
theorem accumulate_truncates_to_int :
    (∀ d ∈ ([65536, 65536] : List Int), 0 ≤ d) ∧
    ([65536, 65536] : List Int).prod = 4294967296 ∧
    ([65536, 65536] : List Int).prod < 2 ^ 63 ∧
    accumulate [65536, 65536] 1 = .ret 0 ∧
    accumulate [65536, 65536] 1 ≠ .ret ([65536, 65536] : List Int).prod ∧
    generate 0 (fun _ => (7 : Int)) = .ret [] ∧
    (make_const_tensor .TF_INT8 [65536, 65536] (7 : Int) ⟨[]⟩).1 = .ub ∧
    (make_random_tensor .TF_INT8 [65536, 65536] 0 9 (fun k => k) ⟨[]⟩).1 = .ub := by
  refine ⟨by decide, by decide, by decide, by decide, by decide, by decide, by decide, by decide⟩

/-- C7, at the failing input: for `dims = [-1]` the fill macros compute
`elems = -1` and run `std::generate` over that range before any validation, so
the call is undefined instead of failing with `InvalidShape`; for
`dims = [-1, -1]` they compute `elems = 1`, allocate and fill a one-cell buffer,
and only then does the constructor reject the shape. -/
theorem make_const_tensor_negative_dim_unchecked :
    accumulate [-1] 1 = .ret (-1) ∧
    generate (-1) (fun _ => (7 : Int)) = .ub ∧
    make_const_tensor .TF_INT32 [-1] (7 : Int) ⟨[]⟩ = (.ub, ⟨[]⟩) ∧
    make_random_tensor .TF_INT32 [-1] 0 9 (fun k => k) ⟨[]⟩ = (.ub, ⟨[]⟩) ∧
    make_const_tensor .TF_INT32 [-1] (7 : Int) ⟨[]⟩ ≠
      (.returned none (some .InvalidShape), ⟨[]⟩) ∧
    accumulate [-1, -1] 1 = .ret 1 ∧
    generate 1 (fun _ => (7 : Int)) = .ret [some 7] ∧
    make_const_tensor .TF_INT32 [-1, -1] (7 : Int) ⟨[]⟩ =
      (.returned none (some .InvalidShape), ⟨[]⟩) := by
  refine ⟨by decide, by decide, by decide, by decide, by decide, by decide, by decide, by decide⟩

end LunaTF
